import Mathlib

/-!
# Verification of the portfolio image-trail effect (`src/main.js`)

Shallow embedding of the stateful core of `src/main.js`:

* `ImageTrail` (lines 9–126): mouse-driven trail renderer with a distance
  threshold of 80 px, a rotating image-pool cursor `imgIndex`, a stacking
  counter `zIndex`, cached baseline position `cachePos`, and a
  visibility-gated `requestAnimationFrame` loop (`init`/`startLoop`).
* `TouchImageEffect` (lines 129–221): tap-driven variant with a 150 ms
  cooldown keyed on `lastTapTime` and a click-vs-touch precedence rule.
* The `DOMContentLoaded` master sequence (lines 587–687): `Promise.all`
  join of the hero-image prefetch and the signature-draw promise, followed
  by `unlockAndInit` which unlocks scroll and runs the section
  initializers once, in a fixed order.

Pointer coordinates are modelled as rationals (container-local pixel
coordinates).  `Math.hypot(dx, dy) > 80` is embedded as the equivalent
comparison `80^2 < dx^2 + dy^2` on squares; the lemma `sqrtQ_gt_iff`
connects the embedded test to the real square root, so theorems can be
stated against the genuine Euclidean distance.

A ghost counter `stamps` is threaded through the state: it increments
exactly when the code performs a stamp (the `zIndex++` / tween /
cursor-advance block), and lets theorems talk about "exactly one stamp".
-/

namespace Portfolio

/-- A container-local pointer position, as produced by
`e.clientX - rect.left` / `e.clientY - rect.top` (main.js lines 60–64). -/
structure Pos where
  x : ℚ
  y : ℚ
deriving Repr, DecidableEq

/-- The constant `this.threshold = 80` (main.js line 21). -/
def threshold : ℚ := 80

/-- State of one `ImageTrail` instance (constructor, main.js lines 10–32).
`numImages` is the length of `this.images`; the image elements themselves
only matter through their count, since `this.images[this.imgIndex]` is
defined exactly when `imgIndex < numImages`.  `stamps` is a ghost counter
of executed stamp blocks. -/
structure TrailState where
  numImages : ℕ
  imgIndex : ℕ
  zIndex : ℕ
  mousePos : Pos
  cachePos : Pos
  stamps : ℕ
deriving Repr, DecidableEq

/-- Constructor state: `imgIndex = 0`, `zIndex = 1`,
`mousePos = cachePos = {x: 0, y: 0}` (main.js lines 13–18). -/
def TrailState.init (n : ℕ) : TrailState :=
  { numImages := n, imgIndex := 0, zIndex := 1,
    mousePos := ⟨0, 0⟩, cachePos := ⟨0, 0⟩, stamps := 0 }

/-- The square of `getDistance(x1, y1, x2, y2) = Math.hypot(x2 - x1, y2 - y1)`
(main.js lines 66–68).  The render check `distance > threshold` is embedded
as `threshold^2 < getDistanceSq …`, which is equivalent for the genuine
square root (`sqrtQ_gt_iff` below). -/
def getDistanceSq (x1 y1 x2 y2 : ℚ) : ℚ :=
  (x2 - x1) ^ 2 + (y2 - y1) ^ 2

/-- Embedding of `onMouseMove` (main.js lines 60–64): overwrite the tracked pointer
position with the container-local position of the event. -/
def onMouseMove (s : TrailState) (p : Pos) : TrailState :=
  { s with mousePos := p }

/-- Embedding of `showNextImage` (main.js lines 70–110): if `this.images[this.imgIndex]`
is missing, return with no state change; otherwise increment `zIndex`,
run the tween (no embedded state), advance `imgIndex` modulo the pool
size, and record `mousePos` as the new `cachePos` baseline. -/
def showNextImage (s : TrailState) : TrailState :=
  if s.imgIndex < s.numImages then
    { s with
      zIndex := s.zIndex + 1,
      imgIndex := (s.imgIndex + 1) % s.numImages,
      cachePos := s.mousePos,
      stamps := s.stamps + 1 }
  else s

/-- Embedding of `render` (main.js lines 112–125): stamp exactly when the distance from
`mousePos` to the cached baseline exceeds the threshold. -/
def render (s : TrailState) : TrailState :=
  if threshold ^ 2 <
      getDistanceSq s.mousePos.x s.mousePos.y s.cachePos.x s.cachePos.y then
    showNextImage s
  else s

/-! ## Visibility-gated frame loop (`ImageTrail.init` / `startLoop`) -/

/-- State of one `ImageTrail` instance together with the browser-side
scheduling environment (main.js lines 23–25 and 42–58).  `rafId` is the
handle last returned by `requestAnimationFrame` (`null` encoded as
`none`); `pending` is the list of callbacks the browser currently holds scheduled
for this instance; `nextId` generates fresh handles. -/
structure LoopState where
  isActive : Bool
  rafId : Option ℕ
  pending : List ℕ
  nextId : ℕ
  trail : TrailState
deriving Repr, DecidableEq

/-- Constructor state: `isActive = false`, `rafId = null` (main.js
lines 24–25), nothing scheduled. -/
def LoopState.init (n : ℕ) : LoopState :=
  { isActive := false, rafId := none, pending := [], nextId := 0,
    trail := TrailState.init n }

/-- Embedding of `startLoop` (main.js lines 54–58): bail out unless active; otherwise
run `render` and schedule the next frame, recording the fresh handle in
`rafId`. -/
def startLoop (s : LoopState) : LoopState :=
  if s.isActive then
    { s with
      trail := render s.trail,
      rafId := some s.nextId,
      pending := s.pending ++ [s.nextId],
      nextId := s.nextId + 1 }
  else s

/-- The `IntersectionObserver` callback (main.js lines 42–50): set
`isActive`; if now intersecting with no loop running, start the loop; if
no longer intersecting with a loop running, cancel the scheduled frame
and clear `rafId`. -/
def observerCb (s : LoopState) (inter : Bool) : LoopState :=
  match inter, s.rafId with
  | true, none => startLoop { s with isActive := true }
  | false, some i =>
      { s with
        isActive := false,
        pending := s.pending.erase i,
        rafId := none }
  | true, some _ => { s with isActive := true }
  | false, none => { s with isActive := false }

/-- The browser fires scheduled callback `id`: it is removed from the
pending queue and the registered closure `() => this.startLoop()`
(main.js line 57) runs.  A cancelled or unknown handle does nothing. -/
def fireFrame (s : LoopState) (id : ℕ) : LoopState :=
  if id ∈ s.pending then startLoop { s with pending := s.pending.erase id }
  else s

/-- Events that can reach an `ImageTrail` instance. -/
inductive TrailEvent where
  | intersect (b : Bool)
  | mouseMove (p : Pos)
  | frame (id : ℕ)
deriving Repr, DecidableEq

/-- Dispatch one event to the instance. -/
def step (s : LoopState) : TrailEvent → LoopState
  | .intersect b => observerCb s b
  | .mouseMove p => { s with trail := onMouseMove s.trail p }
  | .frame id => fireFrame s id

/-- Run a sequence of events. -/
def run (s : LoopState) (evs : List TrailEvent) : LoopState :=
  evs.foldl step s

/-- States reachable from a freshly constructed instance. -/
inductive Reachable (n : ℕ) : LoopState → Prop where
  | init : Reachable n (LoopState.init n)
  | step : ∀ s e, Reachable n s → Reachable n (step s e)

/-- Recognize intersection events (used to state "no further visibility
changes"). -/
def isIntersect : TrailEvent → Bool
  | .intersect _ => true
  | _ => false

/-! ## Tap effect (`TouchImageEffect`) -/

/-- The constant `this.tapCooldown = 150` (main.js line 136), in milliseconds. -/
def tapCooldown : ℤ := 150

/-- The two event types `TouchImageEffect.init` listens for
(main.js lines 149–150). -/
inductive EvType where
  | touchstart
  | click
deriving Repr, DecidableEq

/-- A tap/click event as seen by `onTap`: its type, its `Date.now()`
timestamp, and the container-local position computed from
`e.touches[0]` or `e.clientX`/`e.clientY` (main.js lines 166–175). -/
structure TapEvent where
  type : EvType
  now : ℤ
  pos : Pos
deriving Repr, DecidableEq

/-- State of one `TouchImageEffect` instance (constructor, main.js
lines 130–142).  `stamps` is the ghost counter of executed stamp blocks. -/
structure TouchState where
  numImages : ℕ
  imgIndex : ℕ
  zIndex : ℕ
  lastTapTime : ℤ
  stamps : ℕ
deriving Repr, DecidableEq

/-- Constructor state: `imgIndex = 0`, `zIndex = 1`, `lastTapTime = 0`
(main.js lines 133–135). -/
def TouchState.init (n : ℕ) : TouchState :=
  { numImages := n, imgIndex := 0, zIndex := 1, lastTapTime := 0, stamps := 0 }

/-- Embedding of `showImageAtPosition` (main.js lines 181–220): if
`this.images[this.imgIndex]` is missing, return unchanged; otherwise
increment `zIndex`, run the tween at `(x, y)` (no embedded state), and
advance `imgIndex` modulo the pool size.  Unlike the trail variant, no
baseline position is stored. -/
def showImageAtPosition (s : TouchState) (x y : ℚ) : TouchState :=
  if s.imgIndex < s.numImages then
    { s with
      zIndex := s.zIndex + 1,
      imgIndex := (s.imgIndex + 1) % s.numImages,
      stamps := s.stamps + 1 }
  else s

/-- Embedding of `onTap` (main.js lines 153–179).  `ontouchInWindow` models the
device capability test checking that `ontouchstart` is in `window`
(line 160).  Order is exactly that of the source: cooldown check first, then the `lastTapTime`
update, then the click-vs-touch precedence check, then the stamp. -/
def onTap (ontouchInWindow : Bool) (s : TouchState) (e : TapEvent) : TouchState :=
  if e.now - s.lastTapTime < tapCooldown then s
  else
    let s1 := { s with lastTapTime := e.now }
    if e.type = EvType.click ∧ ontouchInWindow = true then s1
    else showImageAtPosition s1 e.pos.x e.pos.y

/-! ## Repeated stamping (for the pool-cycling property) -/

/-- Iterate `k` consecutive successful-or-skipped stamp attempts on the trail. -/
def stampN : ℕ → TrailState → TrailState
  | 0, s => s
  | k + 1, s => stampN k (showNextImage s)

/-- Iterate `k` consecutive stamp attempts on the tap effect, at fixed tween
coordinates (the coordinates do not enter the stored state). -/
def tapStampN (x y : ℚ) : ℕ → TouchState → TouchState
  | 0, s => s
  | k + 1, s => tapStampN x y k (showImageAtPosition s x y)

/-! ## Per-frame interleavings of moves and checks (for the baseline
property) -/

/-- One step of the mouse-and-frame interleaving seen by a trail state:
either a `mousemove` event or one `render` check of the frame loop. -/
inductive FrameOp where
  | move (p : Pos)
  | check
deriving Repr, DecidableEq

/-- Run a sequence of moves and per-frame checks on a trail state. -/
def frameRun : TrailState → List FrameOp → TrailState
  | s, [] => s
  | s, .move p :: ops => frameRun (onMouseMove s p) ops
  | s, .check :: ops => frameRun (render s) ops

/-- A `FrameOp` is harmless for baseline `base` when it is a check or a
move to a position within the stamp threshold of `base`
(squared-distance comparison, cf. `sqrtQ_le_iff`). -/
def opWithin (base : Pos) : FrameOp → Prop
  | .move p => getDistanceSq p.x p.y base.x base.y ≤ threshold ^ 2
  | .check => True

/-! ## Pool validity predicate -/

/-- The pool invariant of the spec: non-empty pool and a valid rotating
cursor. -/
def TrailState.poolOK (s : TrailState) : Prop :=
  0 < s.numImages ∧ s.imgIndex < s.numImages

/-- The pool invariant for the tap effect. -/
def TouchState.poolOK (s : TouchState) : Prop :=
  0 < s.numImages ∧ s.imgIndex < s.numImages

instance (s : TrailState) : Decidable s.poolOK := by
  unfold TrailState.poolOK; infer_instance

instance (s : TouchState) : Decidable s.poolOK := by
  unfold TouchState.poolOK; infer_instance

/-! ## Preloader master sequence (`DOMContentLoaded` handler) -/

/-- The section initializers invoked by `unlockAndInit`
(main.js lines 627–638), plus the smooth-scroll startup. -/
inductive InitCall where
  | lenis
  | imageTrail
  | hero
  | about
  | skills
  | projects
  | experience
  | sectionTitles
  | footer
  | contactLinks
deriving Repr, DecidableEq

/-- The call order of `unlockAndInit` (main.js lines 622–638):
`initLenis`, then `initImageTrail`, `initHero`, `initAbout`,
`initSkills`, `initProjects`, `initExperience`, `initSectionTitles`,
`initFooter`, `initContactLinks`. -/
def unlockCalls : List InitCall :=
  [.lenis, .imageTrail, .hero, .about, .skills, .projects, .experience,
   .sectionTitles, .footer, .contactLinks]

/-- Outcome of one promise: whether it resolved, and the timestamp at
which it settled. -/
structure PromiseOutcome where
  resolved : Bool
  time : ℤ
deriving Repr, DecidableEq

/-- Join of two promises via `Promise.all` (main.js line 658): resolves when both
have resolved (at the later of the two times); rejects at the first
rejection. -/
def joinAll (a b : PromiseOutcome) : PromiseOutcome :=
  if a.resolved && b.resolved then ⟨true, max a.time b.time⟩
  else if !a.resolved && !b.resolved then ⟨false, min a.time b.time⟩
  else if a.resolved then b
  else a

/-- Observable result of the `DOMContentLoaded` master sequence. -/
structure PreloaderRun where
  scrollUnlocked : Bool
  smoothScrollStarted : Bool
  fadeOutTime : ℤ
  unlockTime : ℤ
  calls : List InitCall
  unlockCount : ℕ
deriving Repr, DecidableEq

/-- Terminal behaviour of the `DOMContentLoaded` handler (main.js
lines 657–686).  On `Promise.all` success: a 600 ms buffer, then the
preloader fade-out, then `unlockAndInit` 400 ms into the fade.  On
failure: immediate fade-out and `unlockAndInit` after 1000 ms.
`unlockAndInit` (lines 622–638) removes the scroll lock, starts the
smooth-scroll instance, and runs the section initializers once in the
fixed order `unlockCalls`. -/
def masterSequence (img sig : PromiseOutcome) : PreloaderRun :=
  let j := joinAll img sig
  if j.resolved then
    { scrollUnlocked := true, smoothScrollStarted := true,
      fadeOutTime := j.time + 600, unlockTime := j.time + 600 + 400,
      calls := unlockCalls, unlockCount := 1 }
  else
    { scrollUnlocked := true, smoothScrollStarted := true,
      fadeOutTime := j.time, unlockTime := j.time + 1000,
      calls := unlockCalls, unlockCount := 1 }

/-! ## Supporting lemmas: distance bridge -/

/-- The squared distance is nonnegative. -/
lemma getDistanceSq_nonneg (x1 y1 x2 y2 : ℚ) :
    0 ≤ getDistanceSq x1 y1 x2 y2 := by
  unfold getDistanceSq
  positivity

/-- Bridge: for a nonnegative rational `D`, `Real.sqrt D ≤ 80` iff
`D ≤ 6400`.  This connects the JavaScript `Math.hypot(...) > 80` test to
the embedded squared comparison. -/
lemma sqrtQ_le_iff (D : ℚ) (hD : 0 ≤ D) :
    Real.sqrt (D : ℝ) ≤ 80 ↔ D ≤ 6400 := by
  have hD' : (0 : ℝ) ≤ (D : ℝ) := by exact_mod_cast hD
  constructor
  · intro h
    have hsq : Real.sqrt (D : ℝ) ^ 2 = (D : ℝ) := Real.sq_sqrt hD'
    have hnn : 0 ≤ Real.sqrt (D : ℝ) := Real.sqrt_nonneg _
    have : (D : ℝ) ≤ 6400 := by nlinarith
    exact_mod_cast this
  · intro h
    have h' : (D : ℝ) ≤ 6400 := by exact_mod_cast h
    have h1 : Real.sqrt (D : ℝ) ≤ Real.sqrt 6400 := Real.sqrt_le_sqrt h'
    have h2 : Real.sqrt (6400 : ℝ) = 80 := by
      rw [show (6400 : ℝ) = 80 ^ 2 by norm_num,
        Real.sqrt_sq (by norm_num : (0 : ℝ) ≤ 80)]
    linarith

/-- Bridge, strict form: `80 < Real.sqrt D` iff `6400 < D`. -/
lemma sqrtQ_gt_iff (D : ℚ) (hD : 0 ≤ D) :
    80 < Real.sqrt (D : ℝ) ↔ 6400 < D := by
  rw [← not_le, ← not_le, sqrtQ_le_iff D hD]

/-- Rewriting of `render` in terms of the concrete numeric threshold. -/
lemma render_eq_ite (s : TrailState) :
    render s =
      if 6400 <
          getDistanceSq s.mousePos.x s.mousePos.y s.cachePos.x s.cachePos.y
      then showNextImage s else s := by
  have : threshold ^ 2 = (6400 : ℚ) := by norm_num [threshold]
  rw [render, this]

/-! ## Supporting lemmas: tap effect -/

/-- A tap inside the cooldown window is dropped with no state change at
all (main.js line 156 returns before `lastTapTime` is updated). -/
lemma onTap_dropped_cooldown (ot : Bool) (s : TouchState) (e : TapEvent)
    (h : e.now - s.lastTapTime < tapCooldown) :
    onTap ot s e = s := by
  simp [onTap, h]

/-- An accepted `touchstart` with a valid cursor performs the full stamp
block. -/
lemma onTap_accepted (ot : Bool) (s : TouchState) (e : TapEvent)
    (hcool : tapCooldown ≤ e.now - s.lastTapTime)
    (htype : e.type = EvType.touchstart)
    (hidx : s.imgIndex < s.numImages) :
    onTap ot s e =
      { s with
        lastTapTime := e.now,
        zIndex := s.zIndex + 1,
        imgIndex := (s.imgIndex + 1) % s.numImages,
        stamps := s.stamps + 1 } := by
  have h1 : ¬ e.now - s.lastTapTime < tapCooldown := not_lt.mpr hcool
  simp [onTap, h1, htype, showImageAtPosition, hidx]

/-- A `click` that passes the cooldown on a touch-capable device only
updates `lastTapTime` (main.js lines 160–163). -/
lemma onTap_click_touch (s : TouchState) (e : TapEvent)
    (hcool : tapCooldown ≤ e.now - s.lastTapTime)
    (htype : e.type = EvType.click) :
    onTap true s e = { s with lastTapTime := e.now } := by
  have h1 : ¬ e.now - s.lastTapTime < tapCooldown := not_lt.mpr hcool
  simp [onTap, h1, htype]

/-! ## Supporting lemmas: frame-loop invariant -/

/-- The frame-loop invariant: the browser holds exactly the callback named
by `rafId` (or none), and an inactive instance holds no callback. -/
def LoopInv (s : LoopState) : Prop :=
  (∀ i, s.rafId = some i → s.pending = [i]) ∧
  (s.rafId = none → s.pending = []) ∧
  (s.isActive = false → s.rafId = none)

lemma loopInv_init (n : ℕ) : LoopInv (LoopState.init n) := by
  refine ⟨?_, ?_, ?_⟩ <;> simp [LoopState.init]

lemma loopInv_step (s : LoopState) (e : TrailEvent) (h : LoopInv s) :
    LoopInv (step s e) := by
  obtain ⟨h1, h2, h3⟩ := h
  cases e with
  | mouseMove p =>
    exact ⟨h1, h2, h3⟩
  | intersect b =>
    cases b with
    | true =>
      cases hr : s.rafId with
      | none =>
        have hp : s.pending = [] := h2 hr
        have hobs : step s (.intersect true) =
            { s with
              isActive := true,
              trail := render s.trail,
              rafId := some s.nextId,
              pending := [s.nextId],
              nextId := s.nextId + 1 } := by
          simp [step, observerCb, hr, startLoop, hp]
        rw [hobs]
        refine ⟨?_, ?_, ?_⟩ <;> simp
      | some i =>
        have hp : s.pending = [i] := h1 i hr
        have hobs : step s (.intersect true) = { s with isActive := true } := by
          simp [step, observerCb, hr]
        rw [hobs]
        refine ⟨?_, ?_, ?_⟩ <;> simp [hr, hp]
    | false =>
      cases hr : s.rafId with
      | none =>
        have hobs : step s (.intersect false) = { s with isActive := false } := by
          simp [step, observerCb, hr]
        rw [hobs]
        exact ⟨h1, h2, fun _ => hr⟩
      | some i =>
        have hp : s.pending = [i] := h1 i hr
        have hobs : step s (.intersect false) =
            { s with
              isActive := false,
              pending := [],
              rafId := none } := by
          simp [step, observerCb, hr, hp, List.erase_cons_head]
        rw [hobs]
        refine ⟨?_, ?_, ?_⟩ <;> simp
  | frame id =>
    by_cases hmem : id ∈ s.pending
    · cases hr : s.rafId with
      | none =>
        have hp : s.pending = [] := h2 hr
        rw [hp] at hmem
        simp at hmem
      | some i =>
        have hp : s.pending = [i] := h1 i hr
        have hid : id = i := by
          rw [hp] at hmem
          simpa using hmem
        subst hid
        cases ha : s.isActive with
        | false =>
          have hrn : s.rafId = none := h3 ha
          rw [hrn] at hr
          cases hr
        | true =>
          have hobs : step s (.frame id) =
              { s with
                trail := render s.trail,
                rafId := some s.nextId,
                pending := [s.nextId],
                nextId := s.nextId + 1 } := by
            simp [step, fireFrame, hmem, startLoop, ha, hp, List.erase_cons_head]
          rw [hobs]
          refine ⟨?_, ?_, ?_⟩ <;> simp [ha]
    · have hobs : step s (.frame id) = s := by
        simp [step, fireFrame, hmem]
      rw [hobs]
      exact ⟨h1, h2, h3⟩

lemma loopInv_reachable {n : ℕ} {s : LoopState} (h : Reachable n s) :
    LoopInv s := by
  induction h with
  | init => exact loopInv_init n
  | step s e _ ih => exact loopInv_step s e ih

/-- A dormant instance (inactive, nothing scheduled) stays dormant and
never stamps under any sequence of events that contains no visibility
change. -/
lemma run_frozen (evs : List TrailEvent) :
    ∀ s : LoopState, s.isActive = false → s.rafId = none → s.pending = [] →
    evs.all (fun e => !(isIntersect e)) = true →
    (run s evs).isActive = false ∧ (run s evs).rafId = none ∧
    (run s evs).pending = [] ∧
    (run s evs).trail.stamps = s.trail.stamps ∧
    (run s evs).trail.imgIndex = s.trail.imgIndex ∧
    (run s evs).trail.zIndex = s.trail.zIndex ∧
    (run s evs).trail.cachePos = s.trail.cachePos := by
  induction evs with
  | nil =>
    intro s hA hR hP _
    exact ⟨hA, hR, hP, rfl, rfl, rfl, rfl⟩
  | cons e rest ih =>
    intro s hA hR hP hall
    simp only [List.all_cons, Bool.and_eq_true] at hall
    obtain ⟨he, hrest⟩ := hall
    cases e with
    | intersect b => simp [isIntersect] at he
    | mouseMove p =>
      have hstep : run s (.mouseMove p :: rest) =
          run { s with trail := onMouseMove s.trail p } rest := by
        simp [run, step]
      rw [hstep]
      have := ih { s with trail := onMouseMove s.trail p } hA hR hP hrest
      simpa [onMouseMove] using this
    | frame id =>
      have hnot : id ∉ s.pending := by rw [hP]; simp
      have hstep : run s (.frame id :: rest) = run s rest := by
        simp [run, fireFrame, step, hnot]
      rw [hstep]
      exact ih s hA hR hP hrest

/-- Switching the intersection signal off cancels the scheduled frame:
the instance becomes dormant and its trail state is untouched. -/
lemma observerCb_false (s : LoopState) (h : LoopInv s) :
    observerCb s false =
      { s with isActive := false, rafId := none, pending := [] } := by
  obtain ⟨h1, h2, _⟩ := h
  cases hr : s.rafId with
  | none =>
    have hp : s.pending = [] := h2 hr
    simp [observerCb, hr, hp]
  | some i =>
    have hp : s.pending = [i] := h1 i hr
    simp [observerCb, hr, hp, List.erase_cons_head]

/-! ## Supporting lemmas: cursor arithmetic -/

lemma showNextImage_poolOK (s : TrailState) (h : s.imgIndex < s.numImages) :
    (showNextImage s).imgIndex < (showNextImage s).numImages ∧
    (showNextImage s).numImages = s.numImages := by
  have hn : 0 < s.numImages := lt_of_le_of_lt (Nat.zero_le _) h
  simp [showNextImage, h, Nat.mod_lt _ hn]

lemma stampN_spec (k : ℕ) :
    ∀ s : TrailState, s.imgIndex < s.numImages →
    (stampN k s).imgIndex = (s.imgIndex + k) % s.numImages ∧
    (stampN k s).numImages = s.numImages := by
  induction k with
  | zero =>
    intro s h
    have hn : 0 < s.numImages := lt_of_le_of_lt (Nat.zero_le _) h
    simp [stampN, Nat.mod_eq_of_lt h]
  | succ k ih =>
    intro s h
    have hn : 0 < s.numImages := lt_of_le_of_lt (Nat.zero_le _) h
    have hnext : (showNextImage s).imgIndex = (s.imgIndex + 1) % s.numImages ∧
        (showNextImage s).numImages = s.numImages := by
      simp [showNextImage, h]
    have hlt : (showNextImage s).imgIndex < (showNextImage s).numImages := by
      rw [hnext.1, hnext.2]
      exact Nat.mod_lt _ hn
    obtain ⟨ih1, ih2⟩ := ih (showNextImage s) hlt
    refine ⟨?_, by rw [show stampN (k + 1) s = stampN k (showNextImage s) from rfl, ih2, hnext.2]⟩
    rw [show stampN (k + 1) s = stampN k (showNextImage s) from rfl, ih1,
      hnext.1, hnext.2, Nat.mod_add_mod]
    ring_nf

lemma tapStampN_spec (x y : ℚ) (k : ℕ) :
    ∀ s : TouchState, s.imgIndex < s.numImages →
    (tapStampN x y k s).imgIndex = (s.imgIndex + k) % s.numImages ∧
    (tapStampN x y k s).numImages = s.numImages := by
  induction k with
  | zero =>
    intro s h
    simp [tapStampN, Nat.mod_eq_of_lt h]
  | succ k ih =>
    intro s h
    have hn : 0 < s.numImages := lt_of_le_of_lt (Nat.zero_le _) h
    have hnext : (showImageAtPosition s x y).imgIndex = (s.imgIndex + 1) % s.numImages ∧
        (showImageAtPosition s x y).numImages = s.numImages := by
      simp [showImageAtPosition, h]
    have hlt : (showImageAtPosition s x y).imgIndex <
        (showImageAtPosition s x y).numImages := by
      rw [hnext.1, hnext.2]
      exact Nat.mod_lt _ hn
    obtain ⟨ih1, ih2⟩ := ih (showImageAtPosition s x y) hlt
    refine ⟨?_, by
      rw [show tapStampN x y (k + 1) s = tapStampN x y k (showImageAtPosition s x y) from rfl,
        ih2, hnext.2]⟩
    rw [show tapStampN x y (k + 1) s = tapStampN x y k (showImageAtPosition s x y) from rfl,
      ih1, hnext.1, hnext.2, Nat.mod_add_mod]
    ring_nf

/-! ## Supporting lemmas: baseline freeze -/

/-- While the pointer stays within the threshold of the cached baseline,
interleaved moves and per-frame checks never stamp. -/
lemma frameRun_frozen (ops : List FrameOp) :
    ∀ s : TrailState,
    getDistanceSq s.mousePos.x s.mousePos.y s.cachePos.x s.cachePos.y ≤
      threshold ^ 2 →
    (∀ op ∈ ops, opWithin s.cachePos op) →
    frameRun s ops =
      { s with mousePos := (frameRun s ops).mousePos } := by
  induction ops with
  | nil => intro s _ _; rfl
  | cons op rest ih =>
    intro s hmouse hall
    have hop := hall op (List.mem_cons_self op rest)
    have hrest : ∀ o ∈ rest, opWithin s.cachePos o :=
      fun o ho => hall o (List.mem_cons_of_mem _ ho)
    cases op with
    | move p =>
      have hstep : frameRun s (.move p :: rest) =
          frameRun { s with mousePos := p } rest := rfl
      rw [hstep]
      have hp : getDistanceSq p.x p.y s.cachePos.x s.cachePos.y ≤ threshold ^ 2 := hop
      have hres := ih { s with mousePos := p } (by simpa using hp)
        (by simpa using hrest)
      exact hres
    | check =>
      have hno : render s = s := by
        rw [render_eq_ite, if_neg]
        have h64 : threshold ^ 2 = (6400 : ℚ) := by norm_num [threshold]
        rw [h64] at hmouse
        exact not_lt.mpr hmouse
      have hstep : frameRun s (.check :: rest) = frameRun (render s) rest := rfl
      rw [hstep, hno]
      exact ih s hmouse hrest

/-! ## Supporting lemmas: pool invariant preservation -/

lemma showNextImage_pres (s : TrailState) (h : s.poolOK) :
    (showNextImage s).poolOK ∧ s.zIndex ≤ (showNextImage s).zIndex := by
  obtain ⟨hn, hi⟩ := h
  refine ⟨⟨?_, ?_⟩, ?_⟩ <;> simp [showNextImage, hi, Nat.mod_lt _ hn, hn]

lemma render_pres (s : TrailState) (h : s.poolOK) :
    (render s).poolOK ∧ s.zIndex ≤ (render s).zIndex := by
  rw [render]
  split
  · exact showNextImage_pres s h
  · exact ⟨h, le_refl _⟩

lemma startLoop_pres (ls : LoopState) (h : ls.trail.poolOK) :
    (startLoop ls).trail.poolOK ∧ ls.trail.zIndex ≤ (startLoop ls).trail.zIndex := by
  rw [startLoop]
  split
  · exact render_pres ls.trail h
  · exact ⟨h, le_refl _⟩

lemma step_pres (ls : LoopState) (e : TrailEvent) (h : ls.trail.poolOK) :
    (step ls e).trail.poolOK ∧ ls.trail.zIndex ≤ (step ls e).trail.zIndex := by
  cases e with
  | mouseMove p => exact ⟨h, le_refl _⟩
  | intersect b =>
    cases b with
    | true =>
      cases hr : ls.rafId with
      | none =>
        have hobs : step ls (.intersect true) =
            startLoop { ls with isActive := true } := by
          simp [step, observerCb, hr]
        rw [hobs]
        exact startLoop_pres { ls with isActive := true } h
      | some i =>
        have hobs : step ls (.intersect true) = { ls with isActive := true } := by
          simp [step, observerCb, hr]
        rw [hobs]
        exact ⟨h, le_refl _⟩
    | false =>
      cases hr : ls.rafId with
      | none =>
        have hobs : step ls (.intersect false) = { ls with isActive := false } := by
          simp [step, observerCb, hr]
        rw [hobs]
        exact ⟨h, le_refl _⟩
      | some i =>
        have hobs : step ls (.intersect false) =
            { ls with
              isActive := false,
              pending := ls.pending.erase i,
              rafId := none } := by
          simp [step, observerCb, hr]
        rw [hobs]
        exact ⟨h, le_refl _⟩
  | frame id =>
    by_cases hmem : id ∈ ls.pending
    · have hobs : step ls (.frame id) =
          startLoop { ls with pending := ls.pending.erase id } := by
        simp [step, fireFrame, hmem]
      rw [hobs]
      exact startLoop_pres { ls with pending := ls.pending.erase id } h
    · have hobs : step ls (.frame id) = ls := by
        simp [step, fireFrame, hmem]
      rw [hobs]
      exact ⟨h, le_refl _⟩

lemma run_pres (evs : List TrailEvent) :
    ∀ ls : LoopState, ls.trail.poolOK →
    (run ls evs).trail.poolOK ∧ ls.trail.zIndex ≤ (run ls evs).trail.zIndex := by
  induction evs with
  | nil => intro ls h; exact ⟨h, le_refl _⟩
  | cons e rest ih =>
    intro ls h
    have hs := step_pres ls e h
    have hrest := ih (step ls e) hs.1
    have hrun : run ls (e :: rest) = run (step ls e) rest := by
      simp [run]
    rw [hrun]
    exact ⟨hrest.1, le_trans hs.2 hrest.2⟩

lemma showImageAtPosition_pres (s : TouchState) (x y : ℚ) (h : s.poolOK) :
    (showImageAtPosition s x y).poolOK ∧
    s.zIndex ≤ (showImageAtPosition s x y).zIndex := by
  obtain ⟨hn, hi⟩ := h
  refine ⟨⟨?_, ?_⟩, ?_⟩ <;> simp [showImageAtPosition, hi, Nat.mod_lt _ hn, hn]

lemma onTap_pres (ot : Bool) (s : TouchState) (e : TapEvent) (h : s.poolOK) :
    (onTap ot s e).poolOK ∧ s.zIndex ≤ (onTap ot s e).zIndex := by
  by_cases hc : e.now - s.lastTapTime < tapCooldown
  · rw [onTap_dropped_cooldown ot s e hc]
    exact ⟨h, le_refl _⟩
  · by_cases hck : e.type = EvType.click ∧ ot = true
    · have hot : onTap ot s e = { s with lastTapTime := e.now } := by
        simp [onTap, hc, hck]
      rw [hot]
      exact ⟨h, le_refl _⟩
    · have hot : onTap ot s e =
          showImageAtPosition { s with lastTapTime := e.now } e.pos.x e.pos.y := by
        simp [onTap, hc, hck]
      rw [hot]
      exact showImageAtPosition_pres { s with lastTapTime := e.now } e.pos.x e.pos.y h

/-! ## Supporting lemmas: preloader -/

lemma joinAll_resolved (a b : PromiseOutcome) :
    (joinAll a b).resolved = (a.resolved && b.resolved) := by
  unfold joinAll
  by_cases ha : a.resolved <;> by_cases hb : b.resolved <;> simp [ha, hb]

lemma unlockCalls_count (c : InitCall) : unlockCalls.count c = 1 := by
  cases c <;> rfl

/-! ## Claims -/

/-- C1: Trail Renderer stamp decision.  In every per-frame check
(`ImageTrail.render`), if the Euclidean distance between the current
pointer position and the cached baseline is ≤ the 80 px threshold, no
stamp occurs: the state (pool cursor, stacking counter, baseline) is
completely unchanged.  If the distance is > the threshold and the pool
cursor is valid (in particular the pool is non-empty), exactly one stamp
occurs and the pool cursor advances by exactly one position modulo the
pool size. -/
theorem claim_C1 (s : TrailState) :
    (Real.sqrt ((getDistanceSq s.mousePos.x s.mousePos.y s.cachePos.x
        s.cachePos.y : ℚ) : ℝ) ≤ 80 → render s = s) ∧
    (80 < Real.sqrt ((getDistanceSq s.mousePos.x s.mousePos.y s.cachePos.x
        s.cachePos.y : ℚ) : ℝ) →
      s.imgIndex < s.numImages →
      (render s).stamps = s.stamps + 1 ∧
      (render s).imgIndex = (s.imgIndex + 1) % s.numImages ∧
      (render s).zIndex = s.zIndex + 1 ∧
      (render s).cachePos = s.mousePos ∧
      (render s).numImages = s.numImages) := by
  have hD : 0 ≤ getDistanceSq s.mousePos.x s.mousePos.y s.cachePos.x s.cachePos.y :=
    getDistanceSq_nonneg _ _ _ _
  constructor
  · intro hle
    have h64 := (sqrtQ_le_iff _ hD).mp hle
    rw [render_eq_ite, if_neg (not_lt.mpr h64)]
  · intro hgt hidx
    have h64 := (sqrtQ_gt_iff _ hD).mp hgt
    have hr : render s = showNextImage s := by
      rw [render_eq_ite, if_pos h64]
    rw [hr]
    refine ⟨?_, ?_, ?_, ?_, ?_⟩ <;> simp [showNextImage, hidx]

/-- Witness for C1: at pool size 3, cursor 0, pointer (0,100), baseline
(0,0), the distance is 100 > 80, and one stamp advances the cursor. -/
theorem claim_C1_witness :
    (render (⟨3, 0, 1, ⟨0, 100⟩, ⟨0, 0⟩, 0⟩ : TrailState)).stamps = 0 + 1 ∧
    (render (⟨3, 0, 1, ⟨0, 100⟩, ⟨0, 0⟩, 0⟩ : TrailState)).imgIndex = (0 + 1) % 3 ∧
    (render (⟨3, 0, 1, ⟨0, 100⟩, ⟨0, 0⟩, 0⟩ : TrailState)).zIndex = 1 + 1 ∧
    (render (⟨3, 0, 1, ⟨0, 100⟩, ⟨0, 0⟩, 0⟩ : TrailState)).cachePos = ⟨0, 100⟩ ∧
    (render (⟨3, 0, 1, ⟨0, 100⟩, ⟨0, 0⟩, 0⟩ : TrailState)).numImages = 3 :=
  (claim_C1 _).2
    ((sqrtQ_gt_iff _ (by norm_num [getDistanceSq])).mpr
      (by norm_num [getDistanceSq]))
    (by norm_num)

/-- C2: Tap cooldown.  Any tap or click event whose timestamp is within
150 ms of the recorded time of the previous accepted event is dropped
with no state change at all (no stamp, no cursor advance, no timestamp
update).  Two `touchstart` events fired more than 150 ms apart on a
fresh instance with a non-empty pool both produce accepted stamps (the
epoch timestamp of the first event is assumed ≥ 150 ms, as `Date.now()`
always is, so it clears the initial `lastTapTime = 0`). -/
theorem claim_C2 :
    (∀ (ot : Bool) (s : TouchState) (e : TapEvent),
      e.now - s.lastTapTime < tapCooldown → onTap ot s e = s) ∧
    (∀ (ot : Bool) (n : ℕ) (t1 t2 : ℤ) (p1 p2 : Pos),
      0 < n → tapCooldown ≤ t1 → tapCooldown < t2 - t1 →
      (onTap ot (TouchState.init n) ⟨EvType.touchstart, t1, p1⟩).stamps = 1 ∧
      (onTap ot (onTap ot (TouchState.init n) ⟨EvType.touchstart, t1, p1⟩)
          ⟨EvType.touchstart, t2, p2⟩).stamps = 2) := by
  constructor
  · exact fun ot s e h => onTap_dropped_cooldown ot s e h
  · intro ot n t1 t2 p1 p2 hn ht1 ht2
    have hidx0 : (TouchState.init n).imgIndex < (TouchState.init n).numImages := by
      simpa [TouchState.init] using hn
    have h1 := onTap_accepted ot (TouchState.init n) ⟨EvType.touchstart, t1, p1⟩
      (by simpa [TouchState.init] using ht1) rfl hidx0
    have hidx1 : (onTap ot (TouchState.init n) ⟨EvType.touchstart, t1, p1⟩).imgIndex <
        (onTap ot (TouchState.init n) ⟨EvType.touchstart, t1, p1⟩).numImages := by
      rw [h1]
      simpa [TouchState.init] using Nat.mod_lt 1 hn
    have hc2 : tapCooldown ≤ (⟨EvType.touchstart, t2, p2⟩ : TapEvent).now -
        (onTap ot (TouchState.init n) ⟨EvType.touchstart, t1, p1⟩).lastTapTime := by
      rw [h1]
      show tapCooldown ≤ t2 - t1
      exact le_of_lt ht2
    have h2 := onTap_accepted ot _ ⟨EvType.touchstart, t2, p2⟩ hc2 rfl hidx1
    constructor
    · rw [h1]
      simp [TouchState.init]
    · rw [h2, h1]
      simp [TouchState.init]

/-- Witness for C2: on a fresh pool of 3, touchstarts at 200 ms and
400 ms both stamp. -/
theorem claim_C2_witness :
    (onTap false (TouchState.init 3) ⟨EvType.touchstart, 200, ⟨0, 0⟩⟩).stamps = 1 ∧
    (onTap false (onTap false (TouchState.init 3) ⟨EvType.touchstart, 200, ⟨0, 0⟩⟩)
        ⟨EvType.touchstart, 400, ⟨1, 1⟩⟩).stamps = 2 :=
  claim_C2.2 false 3 200 400 ⟨0, 0⟩ ⟨1, 1⟩ (by norm_num)
    (by norm_num [tapCooldown]) (by norm_num [tapCooldown])

/-- C3: Visibility Gate.  In every reachable state, at most one frame
callback is scheduled (and it is exactly the one named by `rafId`).
When the intersection signal goes false, the scheduled callback is
cancelled, and no sequence of mouse moves and frame firings without a
further visibility change produces any stamp or cursor/stacking change.
When the signal goes true, a frame loop is running afterwards. -/
theorem claim_C3 (n : ℕ) (s : LoopState) (h : Reachable n s) :
    s.pending.length ≤ 1 ∧
    (∀ i, s.rafId = some i → s.pending = [i]) ∧
    ((step s (.intersect false)).rafId = none ∧
     (step s (.intersect false)).pending = [] ∧
     (∀ evs : List TrailEvent, evs.all (fun e => !(isIntersect e)) = true →
       (run (step s (.intersect false)) evs).trail.stamps = s.trail.stamps ∧
       (run (step s (.intersect false)) evs).trail.imgIndex = s.trail.imgIndex ∧
       (run (step s (.intersect false)) evs).trail.zIndex = s.trail.zIndex)) ∧
    (step s (.intersect true)).rafId.isSome = true := by
  obtain ⟨h1, h2, h3⟩ := loopInv_reachable h
  have hobs : step s (.intersect false) =
      { s with isActive := false, rafId := none, pending := [] } :=
    observerCb_false s ⟨h1, h2, h3⟩
  refine ⟨?_, h1, ⟨?_, ?_, ?_⟩, ?_⟩
  · cases hr : s.rafId with
    | none => simp [h2 hr]
    | some i => simp [h1 i hr]
  · rw [hobs]
  · rw [hobs]
  · intro evs hevs
    rw [hobs]
    have hf := run_frozen evs
      { s with isActive := false, rafId := none, pending := [] } rfl rfl rfl hevs
    exact ⟨hf.2.2.2.1, hf.2.2.2.2.1, hf.2.2.2.2.2.1⟩
  · cases hr : s.rafId with
    | none => simp [step, observerCb, hr, startLoop]
    | some i => simp [step, observerCb, hr]

/-- Witness for C3 at the freshly constructed instance. -/
theorem claim_C3_witness : (LoopState.init 3).pending.length ≤ 1 :=
  (claim_C3 3 (LoopState.init 3) Reachable.init).1

/-- C4: Preloader join and one-shot unlock.  The master sequence always
unlocks scroll, starts smooth scrolling, and invokes the section
initializers exactly once each, in the fixed source order; when both the
image prefetch and the signature draw resolve, the unlock happens only
after both completion times (after the fade-out starts); if either
fails, the sequence falls back to immediate fade-out with a forced
unlock 1000 ms after the rejection. -/
theorem claim_C4 (img sig : PromiseOutcome) :
    ((masterSequence img sig).unlockCount = 1 ∧
     (masterSequence img sig).calls = unlockCalls ∧
     (masterSequence img sig).scrollUnlocked = true ∧
     (masterSequence img sig).smoothScrollStarted = true ∧
     (∀ c : InitCall, (masterSequence img sig).calls.count c = 1)) ∧
    (img.resolved = true → sig.resolved = true →
      img.time ≤ (masterSequence img sig).unlockTime ∧
      sig.time ≤ (masterSequence img sig).unlockTime ∧
      (masterSequence img sig).fadeOutTime ≤ (masterSequence img sig).unlockTime) ∧
    ((img.resolved = false ∨ sig.resolved = false) →
      (masterSequence img sig).fadeOutTime = (joinAll img sig).time ∧
      (masterSequence img sig).unlockTime = (joinAll img sig).time + 1000) := by
  refine ⟨?_, ?_, ?_⟩
  · by_cases hj : (joinAll img sig).resolved <;>
      refine ⟨?_, ?_, ?_, ?_, fun c => ?_⟩ <;>
      simp [masterSequence, hj, unlockCalls_count]
  · intro himg hsig
    have hj : joinAll img sig = ⟨true, max img.time sig.time⟩ := by
      simp [joinAll, himg, hsig]
    have hm : masterSequence img sig =
        { scrollUnlocked := true,
          smoothScrollStarted := true,
          fadeOutTime := max img.time sig.time + 600,
          unlockTime := max img.time sig.time + 600 + 400,
          calls := unlockCalls,
          unlockCount := 1 } := by
      rw [masterSequence, hj]
      simp
    rw [hm]
    refine ⟨?_, ?_, ?_⟩ <;>
      simp <;>
      linarith [le_max_left img.time sig.time, le_max_right img.time sig.time]
  · intro hfail
    have hjr : (joinAll img sig).resolved = false := by
      rcases hfail with hf | hf <;> simp [joinAll_resolved, hf]
    have hm : masterSequence img sig =
        { scrollUnlocked := true,
          smoothScrollStarted := true,
          fadeOutTime := (joinAll img sig).time,
          unlockTime := (joinAll img sig).time + 1000,
          calls := unlockCalls,
          unlockCount := 1 } := by
      rw [masterSequence, hjr]
      simp
    rw [hm]
    exact ⟨rfl, rfl⟩

/-- Witness for C4: both promises resolve (at 5 ms and 9 ms); unlock is
after both. -/
theorem claim_C4_witness :
    (⟨true, 5⟩ : PromiseOutcome).time ≤
      (masterSequence ⟨true, 5⟩ ⟨true, 9⟩).unlockTime ∧
    (⟨true, 9⟩ : PromiseOutcome).time ≤
      (masterSequence ⟨true, 5⟩ ⟨true, 9⟩).unlockTime ∧
    (masterSequence ⟨true, 5⟩ ⟨true, 9⟩).fadeOutTime ≤
      (masterSequence ⟨true, 5⟩ ⟨true, 9⟩).unlockTime :=
  (claim_C4 ⟨true, 5⟩ ⟨true, 9⟩).2.1 rfl rfl

/-- C5: ImagePool state invariant.  Every operation of `ImageTrail`
(mouse move, stamp, render check, any dispatched event, any event run)
and of `TouchImageEffect` (stamp, tap handler) preserves the predicate
"the rotating cursor is a valid index of the non-empty pool", and never
decreases the stacking counter. -/
theorem claim_C5 :
    (∀ (s : TrailState) (p : Pos), s.poolOK →
      (onMouseMove s p).poolOK ∧ s.zIndex ≤ (onMouseMove s p).zIndex) ∧
    (∀ s : TrailState, s.poolOK →
      (showNextImage s).poolOK ∧ s.zIndex ≤ (showNextImage s).zIndex) ∧
    (∀ s : TrailState, s.poolOK →
      (render s).poolOK ∧ s.zIndex ≤ (render s).zIndex) ∧
    (∀ (ls : LoopState) (e : TrailEvent), ls.trail.poolOK →
      (step ls e).trail.poolOK ∧ ls.trail.zIndex ≤ (step ls e).trail.zIndex) ∧
    (∀ (ts : TouchState) (x y : ℚ), ts.poolOK →
      (showImageAtPosition ts x y).poolOK ∧
      ts.zIndex ≤ (showImageAtPosition ts x y).zIndex) ∧
    (∀ (ot : Bool) (ts : TouchState) (e : TapEvent), ts.poolOK →
      (onTap ot ts e).poolOK ∧ ts.zIndex ≤ (onTap ot ts e).zIndex) ∧
    (∀ (ls : LoopState) (evs : List TrailEvent), ls.trail.poolOK →
      (run ls evs).trail.poolOK ∧ ls.trail.zIndex ≤ (run ls evs).trail.zIndex) :=
  ⟨fun s _ h => ⟨h, le_refl _⟩,
   showNextImage_pres,
   render_pres,
   step_pres,
   showImageAtPosition_pres,
   onTap_pres,
   fun ls evs h => run_pres evs ls h⟩

/-- Witness for C5: one stamp on a 2-image pool keeps the cursor valid
and raises the stacking counter. -/
theorem claim_C5_witness :
    (showNextImage (⟨2, 0, 5, ⟨1, 2⟩, ⟨0, 0⟩, 0⟩ : TrailState)).poolOK ∧
    (5 : ℕ) ≤ (showNextImage (⟨2, 0, 5, ⟨1, 2⟩, ⟨0, 0⟩, 0⟩ : TrailState)).zIndex :=
  claim_C5.2.1 _ ⟨by norm_num, by norm_num⟩

/-- C6: Pool cursor cycling.  For a valid cursor over a non-empty pool of
size N, performing exactly N stamps returns the cursor to its starting
index, both for the trail stamp and for the tap stamp. -/
theorem claim_C6 (s : TrailState) (hs : s.imgIndex < s.numImages)
    (ts : TouchState) (hts : ts.imgIndex < ts.numImages) (x y : ℚ) :
    (stampN s.numImages s).imgIndex = s.imgIndex ∧
    (tapStampN x y ts.numImages ts).imgIndex = ts.imgIndex := by
  constructor
  · obtain ⟨h1, _⟩ := stampN_spec s.numImages s hs
    rw [h1, Nat.add_mod_right, Nat.mod_eq_of_lt hs]
  · obtain ⟨h1, _⟩ := tapStampN_spec x y ts.numImages ts hts
    rw [h1, Nat.add_mod_right, Nat.mod_eq_of_lt hts]

/-- Witness for C6: cycling a pool of 3 from cursor 1 returns to 1. -/
theorem claim_C6_witness :
    (stampN 3 (⟨3, 1, 1, ⟨0, 0⟩, ⟨0, 0⟩, 0⟩ : TrailState)).imgIndex = 1 ∧
    (tapStampN 4 5 2 (⟨2, 1, 1, 0, 0⟩ : TouchState)).imgIndex = 1 :=
  claim_C6 (⟨3, 1, 1, ⟨0, 0⟩, ⟨0, 0⟩, 0⟩ : TrailState) (by norm_num)
    (⟨2, 1, 1, 0, 0⟩ : TouchState) (by norm_num) 4 5

/-- C7: Initial baseline.  On a fresh instance the baseline equals the
tracked pointer start (both (0,0)), the first check measures zero
distance and does not stamp, and any interleaving of moves and checks
that keeps the pointer within the threshold of the start produces no
stamp and leaves cursor, stacking counter and baseline untouched; once
the pointer moves beyond the threshold, the next check stamps. -/
theorem claim_C7 (n : ℕ) (ops : List FrameOp)
    (hops : ∀ op ∈ ops, opWithin ⟨0, 0⟩ op) :
    (TrailState.init n).cachePos = (TrailState.init n).mousePos ∧
    render (TrailState.init n) = TrailState.init n ∧
    (frameRun (TrailState.init n) ops).stamps = 0 ∧
    (frameRun (TrailState.init n) ops).imgIndex = 0 ∧
    (frameRun (TrailState.init n) ops).zIndex = 1 ∧
    (frameRun (TrailState.init n) ops).cachePos = ⟨0, 0⟩ ∧
    (∀ p : Pos, 0 < n → threshold ^ 2 < getDistanceSq p.x p.y 0 0 →
      (render (onMouseMove (TrailState.init n) p)).stamps = 1) := by
  have hfreeze := frameRun_frozen ops (TrailState.init n)
    (by norm_num [TrailState.init, getDistanceSq, threshold]) hops
  refine ⟨rfl, ?_, ?_, ?_, ?_, ?_, ?_⟩
  · rw [render_eq_ite, if_neg]
    norm_num [TrailState.init, getDistanceSq]
  · rw [hfreeze]
    simp [TrailState.init]
  · rw [hfreeze]
    simp [TrailState.init]
  · rw [hfreeze]
    simp [TrailState.init]
  · rw [hfreeze]
    simp [TrailState.init]
  · intro p hn hfar
    have h64 : 6400 < getDistanceSq p.x p.y 0 0 := by
      have hth : threshold ^ 2 = (6400 : ℚ) := by norm_num [threshold]
      rw [hth] at hfar
      exact hfar
    have hcond : 6400 <
        getDistanceSq (onMouseMove (TrailState.init n) p).mousePos.x
          (onMouseMove (TrailState.init n) p).mousePos.y
          (onMouseMove (TrailState.init n) p).cachePos.x
          (onMouseMove (TrailState.init n) p).cachePos.y := by
      simpa [onMouseMove, TrailState.init] using h64
    rw [render_eq_ite, if_pos hcond]
    simp [showNextImage, onMouseMove, TrailState.init, hn]

/-- Witness for C7: moves to (0,50) and (30,30) (both within 80 px of
the origin) with interleaved checks never stamp on a 3-image pool. -/
theorem claim_C7_witness :
    (frameRun (TrailState.init 3)
      [FrameOp.check, FrameOp.move ⟨0, 50⟩, FrameOp.check,
       FrameOp.move ⟨30, 30⟩, FrameOp.check]).stamps = 0 :=
  (claim_C7 3
    [FrameOp.check, FrameOp.move ⟨0, 50⟩, FrameOp.check,
     FrameOp.move ⟨30, 30⟩, FrameOp.check]
    (by norm_num [List.forall_mem_cons, opWithin, getDistanceSq, threshold])).2.2.1

/-- C8: Stamp-skip atomicity.  If the pool cursor indexes no image (in
particular when the pool is empty), a stamp attempt returns with no
state change whatsoever, for both variants. -/
theorem claim_C8 :
    (∀ s : TrailState, ¬ s.imgIndex < s.numImages → showNextImage s = s) ∧
    (∀ (ts : TouchState) (x y : ℚ), ¬ ts.imgIndex < ts.numImages →
      showImageAtPosition ts x y = ts) := by
  constructor
  · intro s h
    simp [showNextImage, h]
  · intro ts x y h
    simp [showImageAtPosition, h]

/-- Witness for C8: with an empty pool both stamp attempts are no-ops. -/
theorem claim_C8_witness :
    showNextImage (⟨0, 0, 1, ⟨0, 0⟩, ⟨0, 0⟩, 0⟩ : TrailState) =
      (⟨0, 0, 1, ⟨0, 0⟩, ⟨0, 0⟩, 0⟩ : TrailState) ∧
    showImageAtPosition (⟨0, 0, 1, 0, 0⟩ : TouchState) 7 8 =
      (⟨0, 0, 1, 0, 0⟩ : TouchState) :=
  ⟨claim_C8.1 _ (by norm_num), claim_C8.2 _ 7 8 (by norm_num)⟩

/-- C9: Touch-vs-click precedence.  On a touch-capable device
(where `ontouchstart` is in `window`), a click event never stamps: the cursor,
the ghost stamp counter and the stacking counter are unchanged
(whether the click is dropped by the cooldown or by the precedence
rule). -/
theorem claim_C9 (s : TouchState) (e : TapEvent) (he : e.type = EvType.click) :
    (onTap true s e).imgIndex = s.imgIndex ∧
    (onTap true s e).stamps = s.stamps ∧
    (onTap true s e).zIndex = s.zIndex := by
  by_cases hc : e.now - s.lastTapTime < tapCooldown
  · rw [onTap_dropped_cooldown true s e hc]
    exact ⟨rfl, rfl, rfl⟩
  · rw [onTap_click_touch s e (not_lt.mp hc) he]
    exact ⟨rfl, rfl, rfl⟩

/-- Witness for C9: a click at 500 ms on a fresh touch-device instance
does not stamp. -/
theorem claim_C9_witness :
    (onTap true (TouchState.init 3) ⟨EvType.click, 500, ⟨1, 1⟩⟩).imgIndex =
      (TouchState.init 3).imgIndex ∧
    (onTap true (TouchState.init 3) ⟨EvType.click, 500, ⟨1, 1⟩⟩).stamps =
      (TouchState.init 3).stamps ∧
    (onTap true (TouchState.init 3) ⟨EvType.click, 500, ⟨1, 1⟩⟩).zIndex =
      (TouchState.init 3).zIndex :=
  claim_C9 (TouchState.init 3) ⟨EvType.click, 500, ⟨1, 1⟩⟩ rfl

/-- C10: Implicit cooldown boundary.  The drop test is a strict
less-than, so a `touchstart` exactly 150 ms after the recorded last-tap
time passes the cooldown check and stamps; chaining a second touchstart
exactly 150 ms later, both are accepted. -/
theorem claim_C10 (ot : Bool) (s : TouchState) (e1 e2 : TapEvent)
    (ht1 : e1.type = EvType.touchstart) (ht2 : e2.type = EvType.touchstart)
    (hn1 : e1.now = s.lastTapTime + tapCooldown)
    (hn2 : e2.now = e1.now + tapCooldown)
    (hidx : s.imgIndex < s.numImages) :
    ¬ e1.now - s.lastTapTime < tapCooldown ∧
    (onTap ot s e1).stamps = s.stamps + 1 ∧
    (onTap ot s e1).lastTapTime = e1.now ∧
    (onTap ot (onTap ot s e1) e2).stamps = s.stamps + 2 := by
  have hc1 : tapCooldown ≤ e1.now - s.lastTapTime := by omega
  have h1 := onTap_accepted ot s e1 hc1 ht1 hidx
  have hn : 0 < s.numImages := lt_of_le_of_lt (Nat.zero_le _) hidx
  have hidx1 : (onTap ot s e1).imgIndex < (onTap ot s e1).numImages := by
    rw [h1]
    simpa using Nat.mod_lt (s.imgIndex + 1) hn
  have hc2 : tapCooldown ≤ e2.now - (onTap ot s e1).lastTapTime := by
    rw [h1]
    show tapCooldown ≤ e2.now - e1.now
    omega
  have h2 := onTap_accepted ot _ e2 hc2 ht2 hidx1
  refine ⟨by omega, ?_, ?_, ?_⟩
  · rw [h1]
  · rw [h1]
  · rw [h2, h1]

/-- Witness for C10: taps at exactly 150 ms and 300 ms on a fresh
2-image instance both stamp. -/
theorem claim_C10_witness :
    ¬ (⟨EvType.touchstart, 150, ⟨0, 0⟩⟩ : TapEvent).now -
        (TouchState.init 2).lastTapTime < tapCooldown ∧
    (onTap false (TouchState.init 2) ⟨EvType.touchstart, 150, ⟨0, 0⟩⟩).stamps =
      (TouchState.init 2).stamps + 1 ∧
    (onTap false (TouchState.init 2) ⟨EvType.touchstart, 150, ⟨0, 0⟩⟩).lastTapTime =
      (⟨EvType.touchstart, 150, ⟨0, 0⟩⟩ : TapEvent).now ∧
    (onTap false (onTap false (TouchState.init 2) ⟨EvType.touchstart, 150, ⟨0, 0⟩⟩)
        ⟨EvType.touchstart, 300, ⟨2, 2⟩⟩).stamps = (TouchState.init 2).stamps + 2 :=
  claim_C10 false (TouchState.init 2) ⟨EvType.touchstart, 150, ⟨0, 0⟩⟩
    ⟨EvType.touchstart, 300, ⟨2, 2⟩⟩ rfl rfl (by norm_num [TouchState.init, tapCooldown])
    (by norm_num [tapCooldown]) (by norm_num [TouchState.init])

end Portfolio
